import Mathlib

/-!
Verification development for the fit-processor service.

The first part is a shallow embedding of `src/packages/fit-processor/main.py`
(the FastAPI service and its `parse_fit_file` helper).  The second part is a
model of the FIT decoder core described by the design specification; that core
is not present in the source tree (the source only contains its HTTP callers),
so the corresponding definitions are marked `Modelled from the spec:`.
-/

namespace FitProcessor

/-! ## Embedding of the Python service (main.py) -/

/-- Frame-type tag used by the fitdecode library for data frames
(fitdecode.FIT_FRAME_DATA).  Only its identity is ever compared, the concrete
numeric value is irrelevant. -/
def FIT_FRAME_DATA : Nat := 3

/-- A frame yielded by iterating fitdecode.FitReader: its frame-type tag and
its message name. -/
structure Frame where
  frame_type : Nat
  name : String
deriving DecidableEq

/-- The activity_data dictionary built by parse_fit_file (main.py lines
108-113): a metadata mapping plus records, laps and sessions lists. -/
structure PyActivity where
  metadata : List (String × String)
  records : List String
  laps : List String
  sessions : List String
deriving DecidableEq

/-- The initial value of activity_data in parse_fit_file. -/
def emptyPyActivity : PyActivity := ⟨[], [], [], []⟩

/-- One iteration of the frame loop in parse_fit_file (main.py lines
115-131); every data-frame branch of the source is a bare pass statement, so
each branch returns the state unchanged. -/
def processFrame (st : PyActivity) (f : Frame) : PyActivity :=
  if f.frame_type = FIT_FRAME_DATA then
    if f.name = ("file_id") then st
    else if f.name = ("activity") then st
    else if f.name = ("session") then st
    else if f.name = ("lap") then st
    else if f.name = ("record") then st
    else st
  else st

/-- The frame loop of parse_fit_file. -/
def foldFrames (frames : List Frame) (st : PyActivity) : PyActivity :=
  match frames with
  | [] => st
  | f :: fs => foldFrames fs (processFrame st f)

/-- parse_fit_file (main.py lines 102-136).  The fitdecode reader is
abstracted as a function from the byte buffer to either the list of frames it
yields or the message of the exception it raises; any exception is re-raised
wrapped in the fixed prefix of line 136. -/
def parse_fit_file (reader : List Nat → Except String (List Frame))
    (content : List Nat) : Except String PyActivity :=
  match reader content with
  | .error e => .error (("Failed to parse FIT file: ") ++ e)
  | .ok frames => .ok (foldFrames frames emptyPyActivity)

/-- Python str.endswith, used by the filename check of main.py line 84. -/
def pyEndsWith (s suffix : String) : Bool := suffix.data.isSuffixOf s.data

/-- A Python exception as observed by the blanket handlers in main.py: either
a fastapi HTTPException (status code and detail) or any other exception
carrying a message. -/
inductive PyExc where
  | http (status : Nat) (detail : String)
  | generic (msg : String)
deriving DecidableEq

/-- Python str() of an exception: starlette's HTTPException renders as
"status: detail", a generic exception as its message. -/
def pyStr : PyExc → String
  | .http s d => toString s ++ (": ") ++ d
  | .generic m => m

/-- An HTTP error response raised to the client. -/
structure HTTPError where
  status : Nat
  detail : String
deriving DecidableEq

/-- The success payload returned by the process-upload endpoint. -/
structure UploadResponse where
  success : Bool
  data : PyActivity
  message : String
deriving DecidableEq

/-- The body of the try block of process_uploaded_file (main.py lines
83-97), together with a flag recording whether parse_fit_file was invoked.
file.read() is abstracted as an Except value (its content, or the message of
the exception it raises). -/
def uploadBody (reader : List Nat → Except String (List Frame))
    (filename : String) (readRes : Except String (List Nat)) :
    Except PyExc UploadResponse × Bool :=
  if pyEndsWith filename (".fit") = false then
    (.error (.http 400 ("File must be a .fit file")), false)
  else
    match readRes with
    | .error e => (.error (.generic e), false)
    | .ok content =>
      match parse_fit_file reader content with
      | .error e => (.error (.generic e), true)
      | .ok d => (.ok ⟨true, d, ("File processed successfully")⟩, true)

/-- process_uploaded_file (main.py lines 78-100): the blanket except block
(line 99) catches every exception raised in the try body, including the
HTTPException(400) of line 85, and re-raises HTTPException(500).  The second
component records whether parse_fit_file was invoked. -/
def process_uploaded_file (reader : List Nat → Except String (List Frame))
    (filename : String) (readRes : Except String (List Nat)) :
    Except HTTPError UploadResponse × Bool :=
  match uploadBody reader filename readRes with
  | (.ok resp, c) => (.ok resp, c)
  | (.error e, c) => (.error ⟨500, ("Error processing file: ") ++ pyStr e⟩, c)

/-- The metadata part of the mock payload of the process-fit endpoint
(main.py lines 47-63); the two float literals are represented as rationals. -/
structure MockMetadata where
  device : String
  sport : String
  startTime : String
  totalTime : Nat
  totalDistance : Nat
  avgSpeed : Rat
  maxSpeed : Rat
  avgHeartRate : Nat
  maxHeartRate : Nat
  avgPower : Nat
  maxPower : Nat
  calories : Nat
  elevationGain : Nat
  temperature : Nat
deriving DecidableEq

/-- The mock data dictionary of the process-fit endpoint. -/
structure MockData where
  metadata : MockMetadata
  records : List String
  laps : List String
  sessions : List String
deriving DecidableEq

/-- The ProcessResponse pydantic model (main.py lines 26-29). -/
structure ProcessResponse where
  success : Bool
  data : MockData
  message : String
deriving DecidableEq

/-- The mock_data value built by the process-fit endpoint; startTime is
datetime.now().isoformat(), passed here as the parameter now. -/
def mockData (now : String) : MockData :=
  { metadata :=
      { device := ("Garmin Edge 530")
        sport := ("cycling")
        startTime := now
        totalTime := 3600
        totalDistance := 25000
        avgSpeed := (694 : Rat) / 100
        maxSpeed := (125 : Rat) / 10
        avgHeartRate := 150
        maxHeartRate := 180
        avgPower := 200
        maxPower := 400
        calories := 800
        elevationGain := 500
        temperature := 20 }
    records := []
    laps := []
    sessions := [] }

/-- process_fit_file, the process-fit endpoint (main.py lines 35-76): it
ignores the request body and returns the mock payload, whose startTime field
is the current server time at the moment of the invocation. -/
def process_fit_file (now : String) : ProcessResponse :=
  { success := true
    data := mockData now
    message := ("FIT file processed successfully") }

/-- Replace the startTime field of a response by the empty string. -/
def eraseStartTime (r : ProcessResponse) : ProcessResponse :=
  { r with data := { r.data with metadata := { r.data.metadata with startTime := ("") } } }

/-! ## Theorems about the Python service -/

/-- Every branch of the frame loop leaves the state unchanged. -/
theorem processFrame_eq (st : PyActivity) (f : Frame) : processFrame st f = st := by
  simp [processFrame]

/-- The frame loop is the identity on the accumulated state. -/
theorem foldFrames_eq (frames : List Frame) (st : PyActivity) :
    foldFrames frames st = st := by
  induction frames generalizing st with
  | nil => rfl
  | cons f fs ih =>
    show foldFrames fs (processFrame st f) = st
    rw [processFrame_eq]
    exact ih st

/-- C1: for every byte buffer for which parse_fit_file returns without
raising, the result has an empty metadata mapping and empty records, laps and
sessions lists, and every data-frame branch of the loop is a no-op. -/
theorem parse_fit_file_extracts_nothing
    (reader : List Nat → Except String (List Frame)) (content : List Nat)
    (r : PyActivity) (st : PyActivity) (f : Frame)
    (h : parse_fit_file reader content = .ok r) :
    (r.metadata = [] ∧ r.records = [] ∧ r.laps = [] ∧ r.sessions = []) ∧
    processFrame st f = st := by
  refine ⟨?_, processFrame_eq st f⟩
  unfold parse_fit_file at h
  cases hr : reader content with
  | error e => simp only [hr] at h; exact Except.noConfusion h
  | ok frames =>
    simp only [hr, foldFrames_eq, Except.ok.injEq] at h
    rw [← h]
    exact ⟨rfl, rfl, rfl, rfl⟩

/-- Witness for C1 at a concrete reader, buffer and frame. -/
theorem parse_fit_file_extracts_nothing_inst :
    (emptyPyActivity.metadata = [] ∧ emptyPyActivity.records = [] ∧
     emptyPyActivity.laps = [] ∧ emptyPyActivity.sessions = []) ∧
    processFrame ⟨[(("a"), ("b"))], [("r")], [], []⟩ ⟨3, ("record")⟩ =
      ⟨[(("a"), ("b"))], [("r")], [], []⟩ :=
  parse_fit_file_extracts_nothing
    (fun _ => .ok [⟨3, ("record")⟩, ⟨3, ("lap")⟩]) [1, 2, 3]
    emptyPyActivity ⟨[(("a"), ("b"))], [("r")], [], []⟩ ⟨3, ("record")⟩ rfl

/-- C2 counterexample: the process-fit response is not identical across two
invocations of the endpoint — it embeds the invocation time. -/
theorem process_fit_response_varies_with_time :
    process_fit_file ("2024-01-01T10:00:00") ≠ process_fit_file ("2024-01-01T10:00:01") := by
  intro h
  have h2 : ("2024-01-01T10:00:00" : String) = ("2024-01-01T10:00:01") :=
    congrArg (fun resp => resp.data.metadata.startTime) h
  exact absurd h2 (by decide)

/-- C2 (amended): apart from the startTime field, which embeds the server
time of the invocation, the process-fit response for a fixed request is
identical across any two invocations; the decode itself (parse_fit_file) is a
function of the input buffer alone. -/
theorem process_fit_fixed_modulo_startTime (t1 t2 : String) :
    eraseStartTime (process_fit_file t1) = eraseStartTime (process_fit_file t2) := rfl

/-- C4: for every uploaded file whose filename does not end in .fit, the
endpoint rejects the request with an error response and parse_fit_file is
never invoked on its content. -/
theorem upload_non_fit_rejected_before_decoder
    (reader : List Nat → Except String (List Frame)) (filename : String)
    (readRes : Except String (List Nat))
    (h : pyEndsWith filename (".fit") = false) :
    (process_uploaded_file reader filename readRes).2 = false ∧
    (process_uploaded_file reader filename readRes).1 =
      .error ⟨500, ("Error processing file: 400: File must be a .fit file")⟩ := by
  refine ⟨?_, ?_⟩
  · simp [process_uploaded_file, uploadBody, h]
  · simp [process_uploaded_file, uploadBody, h, pyStr]
    decide

/-- Witness for C4 at a concrete non-fit filename. -/
theorem upload_non_fit_rejected_before_decoder_inst :
    (process_uploaded_file (fun _ => .ok []) ("notes.txt") (.ok [])).2 = false ∧
    (process_uploaded_file (fun _ => .ok []) ("notes.txt") (.ok [])).1 =
      .error ⟨500, ("Error processing file: 400: File must be a .fit file")⟩ :=
  upload_non_fit_rejected_before_decoder (fun _ => .ok []) ("notes.txt") (.ok [])
    (by decide)

/-- C5: every failure of the process-upload endpoint — including the intended
400 rejection of a non-fit filename — is surfaced to the client as an HTTP
500 error, because the blanket except block catches the HTTPException(400)
raised inside the try body. -/
theorem upload_failures_surface_as_500
    (reader : List Nat → Except String (List Frame)) (filename : String)
    (readRes : Except String (List Nat)) (err : HTTPError)
    (h : (process_uploaded_file reader filename readRes).1 = .error err) :
    err.status = 500 := by
  unfold process_uploaded_file at h
  cases hb : uploadBody reader filename readRes with
  | mk fst snd =>
    rw [hb] at h
    cases fst with
    | ok resp => simp at h
    | error e =>
      simp only [Prod.fst, Except.error.injEq] at h
      rw [← h]

/-- Witness for C5 at a concrete failing request. -/
theorem upload_failures_surface_as_500_inst :
    (⟨500, ("Error processing file: 400: File must be a .fit file")⟩ : HTTPError).status = 500 :=
  upload_failures_surface_as_500 (fun _ => .ok []) ("a.gpx") (.ok [])
    ⟨500, ("Error processing file: 400: File must be a .fit file")⟩ rfl

/-! ## Model of the FIT decoder core

Modelled from the spec: the decoder core (ByteCursor, FieldDecoder,
DefinitionTable, MessageDecoder, ActivityAssembler, FitReader) is not present
in the source tree — main.py delegates frame iteration to the external
fitdecode library and every data-frame branch is a stub — so the definitions
below follow sections 2-4 and 6-7 of the design specification. -/

/-- Modelled from the spec: the closed error taxonomy of the output contract
(spec section 6).  CrcMismatch is reported as a soft warning by design choice
(spec section 9), so the model never fails with it; it is listed because the
contract enumerates it. -/
inductive FitError where
  | HeaderInvalid
  | Truncated
  | UndefinedLocalMessage
  | SizeMismatch
  | MalformedMessage (offset : Nat)
  | CrcMismatch
deriving DecidableEq

/-- Modelled from the spec: the 16 standard FIT base types of the
FieldDecoder (spec section 4.2). -/
inductive BaseType where
  | enumT | sint8 | uint8 | sint16 | uint16 | sint32 | uint32
  | stringT | float32 | float64 | uint8z | uint16z | uint32z
  | byteT | sint64 | uint64 | uint64z
deriving DecidableEq

/-- Modelled from the spec: the standard FIT base-type byte codes of the
global dictionary the spec refers to; an unrecognized code makes the
definition message malformed. -/
def baseTypeOfCode : Nat → Option BaseType
  | 0x00 => some .enumT
  | 0x01 => some .sint8
  | 0x02 => some .uint8
  | 0x83 => some .sint16
  | 0x84 => some .uint16
  | 0x85 => some .sint32
  | 0x86 => some .uint32
  | 0x07 => some .stringT
  | 0x88 => some .float32
  | 0x89 => some .float64
  | 0x0A => some .uint8z
  | 0x8B => some .uint16z
  | 0x8C => some .uint32z
  | 0x0D => some .byteT
  | 0x8E => some .sint64
  | 0x8F => some .uint64
  | 0x90 => some .uint64z
  | _ => none

/-- Byte width of a scalar value of each base type. -/
def baseSize : BaseType → Nat
  | .enumT | .sint8 | .uint8 | .stringT | .uint8z | .byteT => 1
  | .sint16 | .uint16 | .uint16z => 2
  | .sint32 | .uint32 | .float32 | .uint32z => 4
  | .sint64 | .uint64 | .float64 | .uint64z => 8

/-- Modelled from the spec: the invalid-value sentinel bit pattern of each
base type (spec section 4.2; e.g. 0xFF for uint8, 0x7FFFFFFF for sint32,
zero for the z-variants). -/
def sentinel : BaseType → Nat
  | .enumT => 0xFF
  | .sint8 => 0x7F
  | .uint8 => 0xFF
  | .sint16 => 0x7FFF
  | .uint16 => 0xFFFF
  | .sint32 => 0x7FFFFFFF
  | .uint32 => 0xFFFFFFFF
  | .stringT => 0x00
  | .float32 => 0xFFFFFFFF
  | .float64 => 0xFFFFFFFFFFFFFFFF
  | .uint8z => 0x00
  | .uint16z => 0x00
  | .uint32z => 0x00
  | .byteT => 0xFF
  | .sint64 => 0x7FFFFFFFFFFFFFFF
  | .uint64 => 0xFFFFFFFFFFFFFFFF
  | .uint64z => 0x00

/-- A decoded field value.  Floating-point values are carried as their raw
bit patterns, which keeps the model exact. -/
inductive Value where
  | num (i : Int)
  | str (s : String)
  | bytes (bs : List Nat)
deriving DecidableEq

/-- Little-endian accumulation of a byte list into a natural number. -/
def leNat : List Nat → Nat
  | [] => 0
  | b :: rest => b + 256 * leNat rest

/-- The raw scalar of a byte slice under the declared architecture flag
(big-endian reverses the byte order). -/
def rawOf (big : Bool) (bs : List Nat) : Nat :=
  if big then leNat bs.reverse else leNat bs

/-- Two's-complement reading of a raw scalar of w bytes. -/
def toSigned (w raw : Nat) : Int :=
  if raw < 2 ^ (8 * w - 1) then (raw : Int) else (raw : Int) - 2 ^ (8 * w)

/-- Interpretation of a non-sentinel raw scalar at a base type. -/
def interpretScalar : BaseType → Nat → Value
  | .sint8, raw => .num (toSigned 1 raw)
  | .sint16, raw => .num (toSigned 2 raw)
  | .sint32, raw => .num (toSigned 4 raw)
  | .sint64, raw => .num (toSigned 8 raw)
  | .float32, raw => .bytes [raw]
  | .float64, raw => .bytes [raw]
  | .stringT, raw => .str (String.mk [Char.ofNat raw])
  | _, raw => .num (raw : Int)

/-- Modelled from the spec: the FieldDecoder (spec section 4.2).  A scalar
slice whose raw value equals the base type's sentinel decodes to none (the
absent marker); strings are cut at the first null, and an all-null string
field is absent; array fields (declared size differing from the scalar
width) are retained as their raw byte sequence. -/
def decodeField (big : Bool) (bt : BaseType) (bs : List Nat) : Option Value :=
  if bs.length = baseSize bt then
    if rawOf big bs = sentinel bt then none
    else some (interpretScalar bt (rawOf big bs))
  else if bt = .stringT then
    match bs.takeWhile (· ≠ 0) with
    | [] => none
    | chars => some (.str (String.mk (chars.map (fun b => Char.ofNat b))))
  else some (.bytes bs)

/-- One field of a definition message: global field number, declared byte
size, base type. -/
structure FieldDef where
  num : Nat
  size : Nat
  baseType : BaseType
deriving DecidableEq

/-- Modelled from the spec: a DefinitionMessage (spec section 3):
architecture flag, global message number and the ordered field layout. -/
structure DefMsg where
  bigEndian : Bool
  global : Nat
  fields : List FieldDef
deriving DecidableEq

/-- The payload size declared by a definition: the sum of its field sizes. -/
def totalSize (d : DefMsg) : Nat := (d.fields.map (fun f => f.size)).sum

/-- Modelled from the spec: the MessageDecoder (spec section 4.4) — each
field of the layout is decoded in declared order from its slice of the
payload, keyed by its global field number. -/
def decodeFields (big : Bool) : List FieldDef → List Nat → List (Nat × Option Value)
  | [], _ => []
  | f :: fs, payload =>
    (f.num, decodeField big f.baseType (payload.take f.size)) ::
      decodeFields big fs (payload.drop f.size)

/-- Modelled from the spec: the DefinitionTable (spec section 4.3), a mapping
from local message number to the currently active definition. -/
def DefTable : Type := Nat → Option DefMsg

/-- The empty table: no local number is defined yet. -/
def emptyTable : DefTable := fun _ => none

/-- define(localNum, def) overwrites unconditionally (spec section 4.3). -/
def defineLocal (t : DefTable) (l : Nat) (d : DefMsg) : DefTable :=
  fun n => if n = l then some d else t n

/-- The standard global message numbers the assembler dispatches on. -/
def globalFileId : Nat := 0
def globalSession : Nat := 18
def globalLap : Nat := 19
def globalRecord : Nat := 20
def globalActivity : Nat := 34

/-- The global field number of the timestamp field. -/
def timestampField : Nat := 253

/-- A decoded record sample: its resolved timestamp (absent when the record
carries no timestamp) and its decoded fields. -/
structure FitRecordRow where
  timestamp : Option Nat
  fields : List (Nat × Option Value)
deriving DecidableEq

/-- Modelled from the spec: the ActivityAssembler state (spec section 4.5):
file-id metadata, activity metadata, the ordered sessions, laps and records
lists, the rolling timestamp reference, and the count of integrity
warnings. -/
structure AState where
  fileId : List (Nat × Option Value)
  activityMeta : List (Nat × Option Value)
  sessions : List (List (Nat × Option Value))
  laps : List (List (Nat × Option Value))
  records : List FitRecordRow
  lastTimestamp : Option Nat
  warnings : Nat
deriving DecidableEq

/-- The assembler state before any message has been folded. -/
def initState : AState := ⟨[], [], [], [], [], none, 0⟩

/-- The timestamp carried by a decoded field mapping, when present. -/
def findTimestamp (fs : List (Nat × Option Value)) : Option Nat :=
  match List.lookup timestampField fs with
  | some (some (.num i)) => some i.toNat
  | _ => none

/-- Modelled from the spec: folding one record message (spec sections 4.5 and
3): the records list is append-only and timestamp-monotonic by construction —
a timestamp behind the rolling reference is clamped to the reference and
counted as a DataIntegrityWarning, and parsing continues; a record with no
timestamp field is appended with an absent timestamp. -/
def stepRecord (st : AState) (fs : List (Nat × Option Value)) : AState :=
  match findTimestamp fs, st.lastTimestamp with
  | some t, some l =>
    if l ≤ t then
      { st with records := st.records ++ [⟨some t, fs⟩], lastTimestamp := some t }
    else
      { st with records := st.records ++ [⟨some l, fs⟩], lastTimestamp := some l,
                warnings := st.warnings + 1 }
  | some t, none =>
    { st with records := st.records ++ [⟨some t, fs⟩], lastTimestamp := some t }
  | none, _ => { st with records := st.records ++ [⟨none, fs⟩] }

/-- Modelled from the spec: the ActivityAssembler dispatch (spec section
4.5): file_id and activity populate metadata, session and lap append to
their lists, record appends a sample, and every other global message number
is ignored without aborting the parse. -/
def assemble (st : AState) (g : Nat) (fs : List (Nat × Option Value)) : AState :=
  if g = globalFileId then { st with fileId := fs }
  else if g = globalActivity then { st with activityMeta := fs }
  else if g = globalSession then { st with sessions := st.sessions ++ [fs] }
  else if g = globalLap then { st with laps := st.laps ++ [fs] }
  else if g = globalRecord then stepRecord st fs
  else st

/-- Reads n field definitions of three bytes each (field number, size, base
type code); fails on a shortage of bytes or an unrecognized base type code. -/
def readFieldDefs : Nat → List Nat → Option (List FieldDef × List Nat)
  | 0, bs => some ([], bs)
  | n + 1, fn :: sz :: btc :: rest =>
    match baseTypeOfCode btc, readFieldDefs n rest with
    | some bt, some (fds, rest2) => some (⟨fn, sz, bt⟩ :: fds, rest2)
    | _, _ => none
  | _ + 1, _ => none

/-- Splits off exactly n bytes when that many remain. -/
def takeExact (n : Nat) (l : List Nat) : Option (List Nat × List Nat) :=
  if n ≤ l.length then some (l.take n, l.drop n) else none

/-- Modelled from the spec: the record loop of the FitReader (spec section
4.6).  The byte at the head of each step is the record header: bit 7 set
means a definition message (architecture flag, global number, field count,
field triples), otherwise a data message on local channel (header mod 16) —
undefined channel fails with UndefinedLocalMessage; a payload shorter than
the sum of the defined field sizes fails with SizeMismatch (spec section 8,
property 8); an unrecognized base type code in a definition fails with
MalformedMessage at the record's byte offset.  The fuel argument is the
number of remaining body bytes, which bounds the number of records. -/
def parseRecords : Nat → Nat → List Nat → DefTable → AState → Except FitError AState
  | _, _, [], _, st => .ok st
  | 0, pos, _ :: _, _, _ => .error (.MalformedMessage pos)
  | fuel + 1, pos, hb :: rest, t, st =>
    if 128 ≤ hb then
      match rest with
      | arch :: g0 :: g1 :: cnt :: rest2 =>
        match readFieldDefs cnt rest2 with
        | some (fds, rest3) =>
          parseRecords fuel (pos + 5 + 3 * cnt) rest3
            (defineLocal t (hb % 16)
              ⟨arch ≠ 0, if arch ≠ 0 then g0 * 256 + g1 else g0 + 256 * g1, fds⟩) st
        | none =>
          if 3 * cnt ≤ rest2.length then .error (.MalformedMessage pos)
          else .error .Truncated
      | _ => .error .Truncated
    else
      match t (hb % 16) with
      | none => .error .UndefinedLocalMessage
      | some d =>
        match takeExact (totalSize d) rest with
        | none => .error .SizeMismatch
        | some (payload, rest3) =>
          parseRecords fuel (pos + 1 + totalSize d) rest3 t
            (assemble st d.global (decodeFields d.bigEndian d.fields payload))

/-- Modelled from the spec: the assembled ActivityResult (spec section 3). -/
structure ActivityResult where
  metadata : List (Nat × Option Value)
  records : List FitRecordRow
  laps : List (List (Nat × Option Value))
  sessions : List (List (Nat × Option Value))
  warnings : Nat
deriving DecidableEq

/-- The final fold of the assembler state into the result. -/
def finish (st : AState) : ActivityResult :=
  ⟨st.fileId ++ st.activityMeta, st.records, st.laps, st.sessions, st.warnings⟩

/-- Modelled from the spec: header parsing (spec sections 3 and 4.6): the
header size byte must be 12 or 14, the magic bytes 8-11 must be ".FIT"
(46 70 73 84), bytes 4-7 are the little-endian data-section size; too few
bytes for the declared header or body is Truncated.  Returns the header size
and the body slice. -/
def headerInfo : List Nat → Except FitError (Nat × List Nat)
  | hs :: _p :: _q :: _r :: d0 :: d1 :: d2 :: d3 :: m0 :: m1 :: m2 :: m3 :: rest =>
    if hs = 12 ∨ hs = 14 then
      if m0 = 46 ∧ m1 = 70 ∧ m2 = 73 ∧ m3 = 84 then
        if hs = 14 ∧ rest.length < 2 then .error .Truncated
        else
          let dataSize := d0 + 256 * d1 + 65536 * d2 + 16777216 * d3
          let afterHeader := if hs = 14 then rest.drop 2 else rest
          if afterHeader.length < dataSize then .error .Truncated
          else .ok (hs, afterHeader.take dataSize)
      else .error .HeaderInvalid
    else .error .HeaderInvalid
  | _ => .error .Truncated

/-- Modelled from the spec: the decoder entry point, decode(bytes) (spec
section 6).  The trailing CRC is treated as a soft warning by the documented
design choice of spec section 9, so it never fails the decode. -/
def decode (bytes : List Nat) : Except FitError ActivityResult :=
  match headerInfo bytes with
  | .error e => .error e
  | .ok (hs, body) =>
    match parseRecords body.length hs body emptyTable initState with
    | .error e => .error e
    | .ok st => .ok (finish st)

/-! ## Theorems about the modelled decoder -/

/-- C7: a decoded field whose raw value equals its base type's invalid-value
sentinel is marked absent in the output; the sentinel's numeric value never
appears as the field's value. -/
theorem sentinel_decodes_to_absent (big : Bool) (bt : BaseType) (bs : List Nat)
    (hlen : bs.length = baseSize bt) (hraw : rawOf big bs = sentinel bt) :
    decodeField big bt bs = none := by
  unfold decodeField
  rw [if_pos hlen, if_pos hraw]

/-- Witness for C7: the uint8 sentinel byte 0xFF decodes to absent. -/
theorem sentinel_decodes_to_absent_inst : decodeField false .uint8 [255] = none :=
  sentinel_decodes_to_absent false .uint8 [255] rfl rfl

/-- C3: for every input byte buffer, decode returns either a structured
ActivityResult or exactly one of the enumerated typed errors; no other
failure shape escapes the decoder. -/
theorem decode_error_taxonomy (b : List Nat) :
    (∃ res, decode b = .ok res) ∨
    decode b = .error .HeaderInvalid ∨ decode b = .error .Truncated ∨
    decode b = .error .UndefinedLocalMessage ∨ decode b = .error .SizeMismatch ∨
    (∃ off, decode b = .error (.MalformedMessage off)) ∨
    decode b = .error .CrcMismatch := by
  rcases hd : decode b with e | r
  · cases e with
    | HeaderInvalid => exact .inr (.inl rfl)
    | Truncated => exact .inr (.inr (.inl rfl))
    | UndefinedLocalMessage => exact .inr (.inr (.inr (.inl rfl)))
    | SizeMismatch => exact .inr (.inr (.inr (.inr (.inl rfl))))
    | MalformedMessage off => exact .inr (.inr (.inr (.inr (.inr (.inl ⟨off, rfl⟩)))))
    | CrcMismatch => exact .inr (.inr (.inr (.inr (.inr (.inr rfl)))))
  · exact .inl ⟨r, rfl⟩

/-- A file whose body is a single data message on channel 3 with no prior
definition message: a 12-byte header declaring dataSize=1 followed by the
record header byte 3. -/
def undefinedLocalFile : List Nat := [12, 16, 0, 0, 1, 0, 0, 0, 46, 70, 73, 84, 3]

/-- C6: a data message whose local message number has no prior definition
message on that channel fails the parse with UndefinedLocalMessage — at any
point of the record loop, and in particular for the spec's scenario of a
data message on channel 3 of an otherwise well-formed file. -/
theorem undefined_local_message_fails (fuel pos hb : Nat) (rest : List Nat)
    (t : DefTable) (st : AState)
    (hdata : hb < 128) (hundef : t (hb % 16) = none) :
    parseRecords (fuel + 1) pos (hb :: rest) t st = .error .UndefinedLocalMessage ∧
    decode undefinedLocalFile = .error .UndefinedLocalMessage := by
  constructor
  · simp only [parseRecords, if_neg (show ¬ 128 ≤ hb by omega), hundef]
  · rfl

/-- Witness for C6 at channel 3 with the empty definition table. -/
theorem undefined_local_message_fails_inst :
    parseRecords (0 + 1) 12 (3 :: []) emptyTable initState =
      .error .UndefinedLocalMessage ∧
    decode undefinedLocalFile = .error .UndefinedLocalMessage :=
  undefined_local_message_fails 0 12 3 [] emptyTable initState (by decide) rfl

/-- C8: every minimal valid file whose header declares dataSize=0 and that
contains no data records decodes successfully to an ActivityResult with
empty records, laps and sessions (for both the 12- and the 14-byte header
form, with arbitrary protocol and profile bytes and trailing CRC bytes). -/
theorem zero_dataSize_decodes_empty (hs p q r : Nat) (rest : List Nat)
    (hh : hs = 12 ∨ (hs = 14 ∧ 2 ≤ rest.length)) :
    decode (hs :: p :: q :: r :: 0 :: 0 :: 0 :: 0 :: 46 :: 70 :: 73 :: 84 :: rest) =
      .ok { metadata := [], records := [], laps := [], sessions := [], warnings := 0 } := by
  rcases hh with h12 | ⟨h14, hlen⟩
  · subst h12
    simp [decode, headerInfo, parseRecords, finish, initState]
  · subst h14
    have hnl : ¬ rest.length < 2 := not_lt.mpr hlen
    simp [decode, headerInfo, parseRecords, finish, initState, hnl]

/-- Witness for C8: the smallest 12-byte-header file with dataSize=0. -/
theorem zero_dataSize_decodes_empty_inst :
    decode (12 :: 16 :: 0 :: 0 :: 0 :: 0 :: 0 :: 0 :: 46 :: 70 :: 73 :: 84 :: []) =
      .ok { metadata := [], records := [], laps := [], sessions := [], warnings := 0 } :=
  zero_dataSize_decodes_empty 12 16 0 0 [] (.inl rfl)

/-- The assembler ignores any global message number outside the five handled
message types, leaving its state unchanged. -/
theorem assemble_unknown (st : AState) (g : Nat) (fs : List (Nat × Option Value))
    (h : g ∉ [globalFileId, globalActivity, globalSession, globalLap, globalRecord]) :
    assemble st g fs = st := by
  simp only [List.mem_cons, List.not_mem_nil, or_false, not_or] at h
  obtain ⟨h1, h2, h3, h4, h5⟩ := h
  unfold assemble
  rw [if_neg h1, if_neg h2, if_neg h3, if_neg h4, if_neg h5]

/-- C10: a data frame whose message type is not one of file_id, activity,
session, lap or record is skipped without raising: the record loop folds it
into an unchanged assembler state and continues with the remaining bytes. -/
theorem unknown_global_skipped (fuel pos hb : Nat) (rest payload rest2 : List Nat)
    (t : DefTable) (d : DefMsg) (st : AState)
    (hdata : hb < 128) (hdef : t (hb % 16) = some d)
    (hg : d.global ∉ [globalFileId, globalActivity, globalSession, globalLap, globalRecord])
    (htake : takeExact (totalSize d) rest = some (payload, rest2)) :
    parseRecords (fuel + 1) pos (hb :: rest) t st =
      parseRecords fuel (pos + 1 + totalSize d) rest2 t st := by
  have ha := assemble_unknown st d.global (decodeFields d.bigEndian d.fields payload) hg
  simp only [parseRecords, if_neg (show ¬ 128 ≤ hb by omega), hdef, htake, ha]

/-- A definition for an event message (global number 21), which the
assembler does not extract. -/
def eventDef : DefMsg := ⟨false, 21, []⟩

/-- A table defining local channel 0 as the event message. -/
def eventTable : DefTable := defineLocal emptyTable 0 eventDef

/-- Witness for C10: an event data message on channel 0 is skipped and the
loop continues on the remaining input with the same state. -/
theorem unknown_global_skipped_inst :
    parseRecords (0 + 1) 12 (0 :: []) eventTable initState =
      parseRecords 0 (12 + 1 + totalSize eventDef) [] eventTable initState :=
  unknown_global_skipped 0 12 0 [] [] [] eventTable eventDef initState
    (by decide) rfl (by decide) rfl

/-! ## The timestamp-monotonicity invariant (C9) -/

/-- The timestamps present in a records list, in order. -/
def tsOf (rs : List FitRecordRow) : List Nat := rs.filterMap (fun r => r.timestamp)

/-- The invariant the assembler maintains: present record timestamps are in
non-decreasing order, all of them are bounded by the rolling reference, and
an absent reference means no timestamp has been seen yet. -/
def RecInv (st : AState) : Prop :=
  List.Sorted (· ≤ ·) (tsOf st.records) ∧
  (∀ l, st.lastTimestamp = some l → ∀ x ∈ tsOf st.records, x ≤ l) ∧
  (st.lastTimestamp = none → tsOf st.records = [])

theorem recInv_init : RecInv initState := by
  unfold RecInv
  refine ⟨?_, ?_, ?_⟩ <;> simp [initState, tsOf]

theorem tsOf_append_some (rs : List FitRecordRow) (fs : List (Nat × Option Value))
    (t : Nat) : tsOf (rs ++ [⟨some t, fs⟩]) = tsOf rs ++ [t] := by
  simp [tsOf, List.filterMap_append, List.filterMap_cons]

theorem tsOf_append_none (rs : List FitRecordRow) (fs : List (Nat × Option Value)) :
    tsOf (rs ++ [⟨none, fs⟩]) = tsOf rs := by
  simp [tsOf, List.filterMap_append, List.filterMap_cons]

/-- Appending a record whose timestamp dominates the previous ones keeps the
timestamp list sorted and bounded. -/
theorem recInv_push (rs : List FitRecordRow) (fs : List (Nat × Option Value))
    (t : Nat) (hsort : List.Sorted (· ≤ ·) (tsOf rs))
    (hub : ∀ x ∈ tsOf rs, x ≤ t) :
    List.Sorted (· ≤ ·) (tsOf (rs ++ [⟨some t, fs⟩])) ∧
    (∀ x ∈ tsOf (rs ++ [⟨some t, fs⟩]), x ≤ t) := by
  rw [tsOf_append_some]
  constructor
  · rw [List.Sorted, List.pairwise_append]
    refine ⟨hsort, List.sorted_singleton t, ?_⟩
    intro x hx y hy
    rw [List.mem_singleton] at hy
    exact hy ▸ hub x hx
  · intro x hx
    rcases List.mem_append.mp hx with hx2 | hx2
    · exact hub x hx2
    · rw [List.mem_singleton] at hx2
      exact hx2.le

/-- Folding one record message preserves the invariant. -/
theorem recInv_push_state (st : AState) (fs : List (Nat × Option Value)) (t w : Nat)
    (h : RecInv st) (hub : ∀ x ∈ tsOf st.records, x ≤ t) :
    RecInv { st with records := st.records ++ [⟨some t, fs⟩],
                     lastTimestamp := some t, warnings := w } := by
  obtain ⟨hsort, _, _⟩ := h
  refine ⟨?_, ?_, ?_⟩
  · show List.Sorted (· ≤ ·) (tsOf (st.records ++ [⟨some t, fs⟩]))
    exact (recInv_push st.records fs t hsort hub).1
  · show ∀ l, some t = some l → ∀ x ∈ tsOf (st.records ++ [⟨some t, fs⟩]), x ≤ l
    intro l hl x hx
    injection hl with hl2
    rw [← hl2]
    exact (recInv_push st.records fs t hsort hub).2 x hx
  · show some t = none → _
    intro hl
    exact Option.noConfusion hl

/-- Folding one record message preserves the invariant. -/
theorem recInv_stepRecord (st : AState) (fs : List (Nat × Option Value))
    (h : RecInv st) : RecInv (stepRecord st fs) := by
  obtain ⟨hsort, hbound, hnone⟩ := h
  cases hts : findTimestamp fs with
  | none =>
    have hstep : stepRecord st fs = { st with records := st.records ++ [⟨none, fs⟩] } := by
      simp [stepRecord, hts]
    rw [hstep]
    refine ⟨?_, ?_, ?_⟩
    · show List.Sorted (· ≤ ·) (tsOf (st.records ++ [⟨none, fs⟩]))
      rw [tsOf_append_none]
      exact hsort
    · show ∀ l, st.lastTimestamp = some l → ∀ x ∈ tsOf (st.records ++ [⟨none, fs⟩]), x ≤ l
      intro l hl x hx
      rw [tsOf_append_none] at hx
      exact hbound l hl x hx
    · show st.lastTimestamp = none → _
      intro hl
      show tsOf (st.records ++ [⟨none, fs⟩]) = []
      rw [tsOf_append_none]
      exact hnone hl
  | some t =>
    cases hlast : st.lastTimestamp with
    | none =>
      have hstep : stepRecord st fs =
          { st with records := st.records ++ [⟨some t, fs⟩], lastTimestamp := some t } := by
        simp [stepRecord, hts, hlast]
      rw [hstep]
      have hempty := hnone hlast
      have hub : ∀ x ∈ tsOf st.records, x ≤ t := by
        rw [hempty]
        simp
      exact recInv_push_state st fs t st.warnings ⟨hsort, hbound, hnone⟩ hub
    | some l =>
      by_cases hle : l ≤ t
      · have hstep : stepRecord st fs =
            { st with records := st.records ++ [⟨some t, fs⟩], lastTimestamp := some t } := by
          simp [stepRecord, hts, hlast, hle]
        rw [hstep]
        have hub : ∀ x ∈ tsOf st.records, x ≤ t :=
          fun x hx => le_trans (hbound l hlast x hx) hle
        exact recInv_push_state st fs t st.warnings ⟨hsort, hbound, hnone⟩ hub
      · have hstep : stepRecord st fs =
            { st with records := st.records ++ [⟨some l, fs⟩], lastTimestamp := some l,
                      warnings := st.warnings + 1 } := by
          simp [stepRecord, hts, hlast, hle]
        rw [hstep]
        exact recInv_push_state st fs l (st.warnings + 1) ⟨hsort, hbound, hnone⟩
          (hbound l hlast)

/-- Folding any decoded message preserves the invariant. -/
theorem recInv_assemble (st : AState) (g : Nat) (fs : List (Nat × Option Value))
    (h : RecInv st) : RecInv (assemble st g fs) := by
  unfold assemble
  split
  · exact h
  · split
    · exact h
    · split
      · exact h
      · split
        · exact h
        · split
          · exact recInv_stepRecord st fs h
          · exact h

/-- The record loop preserves the invariant across a whole parse. -/
theorem recInv_parseRecords (fuel : Nat) :
    ∀ pos body t st st2, RecInv st →
      parseRecords fuel pos body t st = .ok st2 → RecInv st2 := by
  induction fuel with
  | zero =>
    intro pos body t st st2 hinv hp
    cases body with
    | nil =>
      simp only [parseRecords, Except.ok.injEq] at hp
      rw [← hp]
      exact hinv
    | cons hb rest =>
      simp only [parseRecords] at hp
      exact Except.noConfusion hp
  | succ fuel ih =>
    intro pos body t st st2 hinv hp
    cases body with
    | nil =>
      simp only [parseRecords, Except.ok.injEq] at hp
      rw [← hp]
      exact hinv
    | cons hb rest =>
      simp only [parseRecords] at hp
      split at hp
      · split at hp
        · split at hp
          · exact ih _ _ _ _ _ hinv hp
          · split at hp <;> exact Except.noConfusion hp
        · exact Except.noConfusion hp
      · split at hp
        · exact Except.noConfusion hp
        · split at hp
          · exact Except.noConfusion hp
          · exact ih _ _ _ _ _ (recInv_assemble _ _ _ hinv) hp

/-- Inverting a successful decode into its loop run. -/
theorem decode_ok_inv (b : List Nat) (res : ActivityResult)
    (h : decode b = .ok res) :
    ∃ hs body st, headerInfo b = .ok (hs, body) ∧
      parseRecords body.length hs body emptyTable initState = .ok st ∧
      finish st = res := by
  unfold decode at h
  cases hh : headerInfo b with
  | error e =>
    rw [hh] at h
    exact Except.noConfusion h
  | ok v =>
    obtain ⟨hs, body⟩ := v
    rw [hh] at h
    have h2 : (match parseRecords body.length hs body emptyTable initState with
        | Except.error e => (Except.error e : Except FitError ActivityResult)
        | Except.ok st => Except.ok (finish st)) = Except.ok res := h
    cases hp : parseRecords body.length hs body emptyTable initState with
    | error e =>
      rw [hp] at h2
      exact Except.noConfusion h2
    | ok st =>
      rw [hp] at h2
      injection h2 with h3
      exact ⟨hs, body, st, rfl, hp, h3⟩

/-- C9: on every input on which decoding succeeds, the present timestamps of
the records list are in non-decreasing order, and folding a lap or a session
message leaves the records list unchanged. -/
theorem decode_records_sorted (b : List Nat) (res : ActivityResult)
    (st : AState) (fs : List (Nat × Option Value))
    (h : decode b = .ok res) :
    List.Sorted (· ≤ ·) (tsOf res.records) ∧
    (assemble st globalLap fs).records = st.records ∧
    (assemble st globalSession fs).records = st.records := by
  refine ⟨?_, ?_, ?_⟩
  · obtain ⟨hs, body, stf, _, hp, hfin⟩ := decode_ok_inv b res h
    have hinv := recInv_parseRecords body.length _ _ _ _ _ recInv_init hp
    rw [← hfin]
    exact hinv.1
  · simp [assemble, globalLap, globalFileId, globalActivity, globalSession, globalRecord]
  · simp [assemble, globalSession, globalFileId, globalActivity, globalLap, globalRecord]

/-- A valid file with one record definition (local 0, a single uint32
timestamp field) and two data records with timestamps 100 and 200. -/
def sortedFitFile : List Nat :=
  [12, 16, 0, 0, 18, 0, 0, 0, 46, 70, 73, 84,
   128, 0, 20, 0, 1, 253, 4, 134,
   0, 100, 0, 0, 0,
   0, 200, 0, 0, 0]

/-- The result of decoding that file. -/
def sortedFitResult : ActivityResult := (decode sortedFitFile).toOption.getD (finish initState)

/-- Witness for C9 on a concrete file carrying two timestamped records. -/
theorem decode_records_sorted_inst :
    List.Sorted (· ≤ ·) (tsOf sortedFitResult.records) ∧
    (assemble initState globalLap []).records = initState.records ∧
    (assemble initState globalSession []).records = initState.records :=
  decode_records_sorted sortedFitFile sortedFitResult initState [] (by rfl)

end FitProcessor
